import Mathlib

/-!
Verification of the evaluation + graph-orchestration core of the
industriage workflow repository, as a shallow embedding in Lean 4.

The embedding covers:
* the JSON-like value universe that the Python code manipulates
  (`Dict[str, Any]` payloads), together with Python truthiness,
  Python `==`, and substring search on lowercased text;
* the five evaluation metrics of `src/base/evaluator.py`
  (schema validity, category classification, asset identification,
  downtime extraction, completeness) and the `EvaluationFramework`
  metric loop;
* the graph builder of `src/base/graph_builder.py` (agent nodes,
  the trailing `validate_output` node, edge rewriting, execution),
  with the model backend and the pydantic schema validator kept
  abstract, as fallible functions;
* `BaseWorkflow.run_evaluation` of `src/base/workflow.py`.

Modelling conventions: Python numbers become `ℚ` (booleans are
numeric for `isinstance(·, (int, float))`, as in Python); dictionaries
become association lists keyed by `String`; fallible calls return
`Except String ·`.  Places where the Python code would raise on
ill-typed data (iterating a non-list, calling `.get` on a non-dict)
are modelled as yielding no elements; such inputs never reach the
normal return paths studied here.
-/

/-- JSON-like universe of values stored in `Dict[str, Any]` payloads. -/
inductive JValue : Type where
  | null : JValue
  | bool (b : Bool) : JValue
  | num (q : ℚ) : JValue
  | str (s : String) : JValue
  | arr (xs : List JValue) : JValue
  | obj (fields : List (String × JValue)) : JValue

/-- A Python dictionary with string keys, as an association list
(first occurrence of a key wins, mirroring unique dict keys). -/
abbrev Obj := List (String × JValue)

/-- `d.get(key)`: first value bound to `key`, if any. -/
def jLookup : Obj → String → Option JValue
  | [], _ => none
  | (k, v) :: rest, key => if k = key then some v else jLookup rest key

mutual

/-- Python `==` on `JValue`s.  Booleans compare equal to the numbers
`1`/`0` (`bool` is an `int` subclass); lists compare elementwise;
dictionaries are compared as ordered association lists. -/
def pyEq : JValue → JValue → Bool
  | .null, .null => true
  | .bool a, .bool b => a == b
  | .bool a, .num q => (if a then (1 : ℚ) else 0) == q
  | .num q, .bool b => q == (if b then (1 : ℚ) else 0)
  | .num a, .num b => a == b
  | .str a, .str b => a == b
  | .arr xs, .arr ys => pyEqL xs ys
  | .obj xs, .obj ys => pyEqO xs ys
  | _, _ => false

/-- Elementwise Python `==` on lists. -/
def pyEqL : List JValue → List JValue → Bool
  | [], [] => true
  | x :: xs, y :: ys => pyEq x y && pyEqL xs ys
  | _, _ => false

/-- Entrywise Python `==` on association lists. -/
def pyEqO : List (String × JValue) → List (String × JValue) → Bool
  | [], [] => true
  | (k, v) :: xs, (k2, v2) :: ys => k == k2 && pyEq v v2 && pyEqO xs ys
  | _, _ => false

end

/-- Python truthiness: `None`, `False`, `0`, `""`, `[]`, `{}` are falsy. -/
def truthy : JValue → Bool
  | .null => false
  | .bool b => b
  | .num q => q ≠ 0
  | .str s => s ≠ ""
  | .arr xs => !xs.isEmpty
  | .obj fs => !fs.isEmpty

/-- `if not expected_output:` on an `Optional[Dict]` argument —
true when the argument is `None` or an empty mapping. -/
def noExpected : Option Obj → Bool
  | none => true
  | some fs => fs.isEmpty

/-- `isinstance(v, (int, float))` view of a value as a number
(Python booleans are ints: `True` is `1`, `False` is `0`). -/
def toNumQ : JValue → Option ℚ
  | .num q => some q
  | .bool b => some (if b then 1 else 0)
  | _ => none

/-- `str.lower()`, character by character. -/
def strLower (s : String) : String := String.mk (s.data.map Char.toLower)

/-- `needle in hay` on character lists: some tail of `hay` starts
with `needle`. -/
def charsContain (hay needle : List Char) : Bool :=
  match hay with
  | [] => needle.isEmpty
  | _ :: t => needle.isPrefixOf hay || charsContain t needle

/-- Python substring test `needle in hay`. -/
def pyIn (needle hay : String) : Bool := charsContain hay.data needle.data

/-- The fixed top-level category list used by the metrics. -/
def CATEGORIES : List String := ["work_requests", "work_orders", "tasks"]

/-- `SchemaValidityMetric.evaluate`: 1.0 if the actual output
validates against the declared pydantic schema, else 0.0.  The
schema class is abstracted into a boolean validity predicate. -/
def schemaValidityEvaluate (validate : Obj → Bool) (input_text : String)
    (actual_output : Obj) (expected_output : Option Obj) : ℚ :=
  if validate actual_output then 1 else 0

/-- The set of categories whose entry in an output mapping is truthy
(`if output.get("work_requests"): categories.add(...)`, etc.). -/
def catSet (o : Obj) : Finset String :=
  (CATEGORIES.filter (fun k => truthy ((jLookup o k).getD .null))).toFinset

/-- `CategoryClassificationMetric.evaluate`. -/
def categoryClassificationEvaluate (input_text : String)
    (actual_output : Obj) (expected_output : Option Obj) : ℚ :=
  if noExpected expected_output then 0
  else
    let expected_categories := catSet (expected_output.getD [])
    let actual_categories := catSet actual_output
    if expected_categories = actual_categories then 1
    else
      let intersection := expected_categories ∩ actual_categories
      let union := expected_categories ∪ actual_categories
      if union = ∅ then 0 else (intersection.card : ℚ) / union.card

/-- `AssetIdentificationMetric.ASSET_MAPPINGS`. -/
def ASSET_MAPPINGS : List (String × List String) :=
  [("tunnel-001", ["tunnel washer 1", "tunnel 1", "tunnel one"]),
   ("tunnel-002", ["tunnel washer 2", "tunnel 2", "tunnel two"]),
   ("dryer-012", ["dryer 12", "clm 12", "clm dryer 12"]),
   ("dryer-022", ["dryer 22", "incline dryer 22"]),
   ("ironer-004", ["ironer 4", "iron 4", "ironer number 4"])]

/-- Asset ids one of whose phrase variations occurs in the lowercased
input text (the inner loop `break`s on the first matching variation,
so each id is added at most once). -/
def expectedAssets (input_text : String) : List String :=
  (ASSET_MAPPINGS.filter
    (fun p => p.2.any (fun variation => pyIn variation (strLower input_text)))).map
    (fun p => p.1)

/-- `output.get(category, [])`, iterated: the items of a category.
A non-list value, which would raise in Python, yields no items. -/
def getItems (o : Obj) (category : String) : List JValue :=
  match jLookup o category with
  | some (.arr items) => items
  | _ => []

/-- Every truthy `asset_id` attached to any item across all output
categories (Python accumulates these into a set). -/
def actualAssets (actual_output : Obj) : List JValue :=
  CATEGORIES.flatMap (fun category =>
    (getItems actual_output category).filterMap (fun item =>
      match item with
      | .obj fs =>
        match jLookup fs "asset_id" with
        | some v => if truthy v then some v else none
        | none => none
      | _ => none))

/-- Membership of a value in a collected value list, under Python `==`. -/
def memPy (v : JValue) (l : List JValue) : Bool := l.any (fun w => pyEq v w)

/-- Python set equality between the expected id set and the collected
actual values: mutual inclusion under `==`. -/
def assetSetsEqual (expected : List String) (actual : List JValue) : Bool :=
  expected.all (fun id => memPy (.str id) actual) &&
    actual.all (fun v => expected.any (fun id => pyEq v (.str id)))

/-- `AssetIdentificationMetric.evaluate`. -/
def assetIdentificationEvaluate (input_text : String)
    (actual_output : Obj) (expected_output : Option Obj) : ℚ :=
  let expected_assets := expectedAssets input_text
  if expected_assets.isEmpty then 1
  else
    let actual_assets := actualAssets actual_output
    if assetSetsEqual expected_assets actual_assets then 1
    else
      let intersection :=
        expected_assets.filter (fun id => memPy (.str id) actual_assets)
      (intersection.length : ℚ) / expected_assets.length

/-- `expected_output.get("equipment_downtime")` (null when the
expected output is absent or lacks the key). -/
def expectedDowntimeOf (expected_output : Option Obj) : JValue :=
  (jLookup (expected_output.getD []) "equipment_downtime").getD .null

/-- `actual_output.get("equipment_downtime")`. -/
def actualDowntimeOf (actual_output : Obj) : JValue :=
  (jLookup actual_output "equipment_downtime").getD .null

/-- `DowntimeExtractionMetric.evaluate`. -/
def downtimeExtractionEvaluate (input_text : String)
    (actual_output : Obj) (expected_output : Option Obj) : ℚ :=
  if noExpected expected_output then 0
  else
    let expected_downtime := expectedDowntimeOf expected_output
    let actual_downtime := actualDowntimeOf actual_output
    if pyEq expected_downtime actual_downtime then 1
    else
      match toNumQ expected_downtime, toNumQ actual_downtime with
      | some e, some a =>
        if e = 0 then (if a = 0 then 1 else 0)
        else
          let relative_error := |e - a| / e
          max 0 (1 - relative_error)
      | _, _ => 0

/-- `CompletenessMetric` required-field list. -/
def REQUIRED_FIELDS : List String := ["title", "description", "status"]

/-- The fields of an item dictionary (a non-dict item, which would
raise in Python at `field in item`, has none). -/
def itemFields : JValue → Obj
  | .obj fs => fs
  | _ => []

/-- Per-item completeness: the fraction of required fields that are
present and truthy (`if field in item and item[field]`). -/
def itemScore (item : JValue) : ℚ :=
  ((REQUIRED_FIELDS.filter (fun field =>
    match jLookup (itemFields item) field with
    | some v => truthy v
    | none => false)).length : ℚ) / REQUIRED_FIELDS.length

/-- `CompletenessMetric.evaluate`.  The two nested source loops over
categories and their items are flattened into one item list; the
`expected_items` the source fetches are never used. -/
def completenessEvaluate (input_text : String)
    (actual_output : Obj) (expected_output : Option Obj) : ℚ :=
  if noExpected expected_output then 0
  else
    let allItems := CATEGORIES.flatMap (getItems actual_output)
    let total_items := allItems.length
    let score := (allItems.map itemScore).sum
    if total_items > 0 then score / total_items else 0

/-- A metric implementation as seen by the framework: a named,
possibly raising scoring function. -/
def MetricFn : Type := String → Obj → Option Obj → Except String ℚ

/-- `EvaluationFramework.evaluate`: run every registered metric in
registration order; a raising metric is caught and scored 0.0. -/
def frameworkEvaluate (metrics : List (String × MetricFn))
    (input_text : String) (actual_output : Obj)
    (expected_output : Option Obj) : List (String × ℚ) :=
  metrics.map (fun m =>
    (m.1, match m.2 input_text actual_output expected_output with
          | .ok score => score
          | .error _ => 0))

/-- `EvaluationFramework.get_aggregate_score`: arithmetic mean of the
scores, 0 when there are none. -/
def getAggregateScore (scores : List (String × ℚ)) : ℚ :=
  if scores.isEmpty then 0
  else (scores.map (fun s => s.2)).sum / scores.length

/-- `BaseState` of `src/base/state.py`, the run-state threaded
through graph execution. -/
structure RunState where
  input_data : String
  output_data : Option JValue
  errors : List String
  metadata : List (String × JValue)
  step_results : List (String × JValue)

/-- The initial state `execute` constructs for each invocation. -/
def mkInitialState (input_text : String) : RunState :=
  { input_data := input_text
    output_data := none
    errors := []
    metadata := []
    step_results := [] }

/-- Python dict assignment `d[k] = v`: update the existing binding in
place, or append a new one. -/
def setKey : List (String × JValue) → String → JValue → List (String × JValue)
  | [], k, v => [(k, v)]
  | (k', v') :: rest, k, v =>
    if k' = k then (k, v) :: rest else (k', v') :: setKey rest k v

/-- The model backend behind one agent step: prompt template, LLM and
JSON output parsing collapsed into one fallible call from the agent
name and the run input to a structured result. -/
def ModelBackend : Type := String → String → Except String JValue

/-- The pydantic schema validation used by the terminal node:
`model_validate` followed by `model_dump`, as a fallible function. -/
def SchemaValidator : Type := JValue → Except String JValue

/-- `GraphBuilder._create_agent_node`: the node function for one
agent.  On success it overwrites `output_data` and records the raw
result under the agent's name; on failure it appends
`"Error in {agent_name}: {message}"` to `errors`, sets `output_data`
to null, and touches nothing else. -/
def agentNode (model : ModelBackend) (agent_name : String)
    (state : RunState) : RunState :=
  match model agent_name state.input_data with
  | .ok result =>
    { state with
      output_data := some result
      step_results := setKey state.step_results agent_name result }
  | .error e =>
    { state with
      errors := state.errors ++ ["Error in " ++ agent_name ++ ": " ++ e]
      output_data := none }

/-- `GraphBuilder._validate_output_node`. -/
def validateNode (validator : SchemaValidator) (state : RunState) : RunState :=
  match state.output_data with
  | some out =>
    if truthy out then
      match validator out with
      | .ok validated =>
        { state with
          step_results := setKey state.step_results "validate_output"
            (.obj [("valid", .bool true), ("validated_data", validated)]) }
      | .error e =>
        let error_msg := "Validation error: " ++ e
        { state with
          errors := state.errors ++ [error_msg]
          step_results := setKey state.step_results "validate_output"
            (.obj [("valid", .bool false), ("error", .str error_msg)]) }
    else
      { state with
        step_results := setKey state.step_results "validate_output"
          (.obj [("valid", .bool false),
                 ("error", .str "No output data to validate")]) }
  | none =>
    { state with
      step_results := setKey state.step_results "validate_output"
        (.obj [("valid", .bool false),
               ("error", .str "No output data to validate")]) }

/-- Dispatch a node of the compiled graph: the implicit
`validate_output` node runs the validation function, every other
node is an agent node (agents cannot be named `validate_output`,
since `add_node` rejects duplicate names). -/
def runNode (model : ModelBackend) (validator : SchemaValidator)
    (name : String) (state : RunState) : RunState :=
  if name = "validate_output" then validateNode validator state
  else agentNode model name state

/-- Execute a sequence of graph nodes in order on a state. -/
def runNodes (model : ModelBackend) (validator : SchemaValidator)
    (nodes : List String) (state : RunState) : RunState :=
  nodes.foldl (fun s n => runNode model validator n s) state

/-- The declarative graph configuration loaded from `graph.json`:
the declared agent/step names and the edge list with `START`/`END`
sentinels. -/
structure GraphSpec where
  agents : List String
  edges : List (String × String)

/-- Structural graph-configuration failures surfaced at compile time
(spec error taxonomy: `ConfigError`). -/
inductive ConfigError : Type where
  | noStartEdge : ConfigError
  | undeclaredStep : ConfigError
  | cyclicGraph : ConfigError

/-- The node set of the built graph: every declared agent plus the
implicit `validate_output` node. -/
def graphNodes (spec : GraphSpec) : List String :=
  spec.agents ++ ["validate_output"]

/-- The entry point set while walking the edges: each `START` edge
calls `set_entry_point`, the last one winning. -/
def findEntry (edges : List (String × String)) : Option String :=
  edges.foldl (fun acc e => if e.1 = "START" then some e.2 else acc) none

/-- The node-to-node transitions of the built graph: `START` edges
set the entry point instead, and an edge into `END` is rewritten to
route through `validate_output`. -/
def coreEdges (edges : List (String × String)) : List (String × String) :=
  edges.flatMap (fun e =>
    if e.1 = "START" then []
    else if e.2 = "END" then [(e.1, "validate_output")]
    else [e])

/-- Whether one declared edge only references declared step names:
a `START` edge references its target as the entry node, an edge into
`END` references its source, and any other edge references both
endpoints. -/
def edgeDeclared (nodes : List String) (e : String × String) : Bool :=
  if e.1 = "START" then nodes.contains e.2
  else if e.2 = "END" then nodes.contains e.1
  else nodes.contains e.1 && nodes.contains e.2

/-- A node of `remaining` with no incoming transition from
`remaining` (a source of the not-yet-ordered subgraph). -/
def pickSource (edges : List (String × String))
    (remaining : List String) : Option String :=
  remaining.find? (fun v =>
    !(edges.any (fun e => e.2 == v && remaining.contains e.1)))

/-- Kahn-style acyclicity check: repeatedly remove a source from the
remaining nodes; the graph is acyclic exactly when the node list can
be emptied this way. -/
def kahn (edges : List (String × String)) : ℕ → List String → Bool
  | _, [] => true
  | 0, _ :: _ => false
  | fuel + 1, v :: rest =>
    match pickSource edges (v :: rest) with
    | none => false
    | some w => kahn edges fuel ((v :: rest).erase w)

/-- The compiled executable graph. -/
structure CompiledGraph where
  nodes : List String
  edges : List (String × String)
  entry : String

/-- Modelled from the spec: the structural validation performed by
the external graph library when `GraphBuilder.build_graph` calls
`compile()` (the library itself is not part of this repository's
sources).  Per the spec, compilation fails with `ConfigError` when no
`START` edge exists, when an edge references an undeclared step name,
or when the graph is cyclic; the edge walk itself (entry point,
rewriting of `END` edges through `validate_output`) follows
`build_graph`. -/
def compileGraph (spec : GraphSpec) : Except ConfigError CompiledGraph :=
  let nodes := graphNodes spec
  match findEntry spec.edges with
  | none => .error .noStartEdge
  | some entry =>
    if spec.edges.all (edgeDeclared nodes) then
      let transitions := coreEdges spec.edges
      if kahn transitions nodes.length nodes then
        .ok { nodes := nodes, edges := transitions, entry := entry }
      else .error .cyclicGraph
    else .error .undeclaredStep

/-- The unique successor of a node in the compiled graph (the current
workflow shapes declare at most one outgoing edge per node). -/
def succOf (edges : List (String × String)) (v : String) : Option String :=
  (edges.find? (fun e => e.1 = v)).map (fun e => e.2)

/-- The node visit order: follow successors from a node until no
transition remains (the edge into `END` was rewritten to stop at
`validate_output`). -/
def pathFrom (edges : List (String × String)) : ℕ → String → List String
  | 0, _ => []
  | fuel + 1, v =>
    v :: (match succOf edges v with
          | none => []
          | some w => pathFrom edges fuel w)

/-- The executed node order of a compiled graph. -/
def nodeOrder (g : CompiledGraph) : List String :=
  pathFrom g.edges (g.nodes.length + 1) g.entry

/-- `graph.invoke(initial_state)`: run the compiled node order on a
fresh initial state. -/
def invokeGraph (g : CompiledGraph) (model : ModelBackend)
    (validator : SchemaValidator) (input_text : String) : RunState :=
  runNodes model validator (nodeOrder g) (mkInitialState input_text)

/-- `GraphBuilder.execute` without the instance cache: compile the
graph, then invoke it; a compile failure is surfaced before any node
runs. -/
def executeGraph (spec : GraphSpec) (model : ModelBackend)
    (validator : SchemaValidator) (input_text : String) :
    Except ConfigError RunState :=
  match compileGraph spec with
  | .error e => .error e
  | .ok g => .ok (invokeGraph g model validator input_text)

/-- `GraphBuilder` instance state: the graph specification and the
cached compiled graph (`self.graph`, `None` until built). -/
structure GraphBuilder where
  spec : GraphSpec
  graph : Option CompiledGraph

/-- `GraphBuilder.execute`: build the graph if not yet built, then
invoke it on the input; returns the final run-state together with the
updated builder (whose cache now holds the compiled graph). -/
def gbExecute (gb : GraphBuilder) (model : ModelBackend)
    (validator : SchemaValidator) (input_text : String) :
    Except ConfigError (RunState × GraphBuilder) :=
  match gb.graph with
  | some g => .ok (invokeGraph g model validator input_text, gb)
  | none =>
    match compileGraph gb.spec with
    | .error e => .error e
    | .ok g =>
      .ok (invokeGraph g model validator input_text,
           { gb with graph := some g })

/-- One dataset item of `run_evaluation`: `{input, expected_output?}`. -/
structure EvalItem where
  input : String
  expected_output : Option Obj

/-- `EvaluationResult` of `src/base/state.py`, with its pydantic
field defaults. -/
structure EvaluationResult where
  input_text : String
  expected_output : Option Obj := none
  actual_output : Option Obj := none
  metrics : List (String × ℚ) := []
  errors : List String := []
  execution_time : ℚ := 0
  success : Bool := false

/-- The loop body of `BaseWorkflow.run_evaluation` for one item:
process the input, record actual and expected output, evaluate the
metrics; any exception from processing or scoring is caught, its
message appended to `errors` and `success` left false.
`execution_time` is set after the `try` block from the wall clock;
the measured duration is passed in as `elapsed`. -/
def evalOneItem (process : String → Except String Obj)
    (evalOut : String → Obj → Option Obj → Except String (List (String × ℚ)))
    (item : EvalItem) (elapsed : ℚ) : EvaluationResult :=
  let r0 : EvaluationResult := { input_text := item.input }
  let r1 :=
    match process item.input with
    | .error e => { r0 with errors := r0.errors ++ [e], success := false }
    | .ok actual_output =>
      let r0a := { r0 with
        actual_output := some actual_output
        expected_output := item.expected_output }
      match evalOut item.input actual_output item.expected_output with
      | .error e => { r0a with errors := r0a.errors ++ [e], success := false }
      | .ok metrics => { r0a with metrics := metrics, success := true }
  { r1 with execution_time := elapsed }

/-- `BaseWorkflow.run_evaluation`: evaluate every dataset item in
order, appending one `EvaluationResult` per item.  Each item carries
the wall-clock duration its processing takes. -/
def runEvaluation (process : String → Except String Obj)
    (evalOut : String → Obj → Option Obj → Except String (List (String × ℚ)))
    (dataset : List (EvalItem × ℚ)) : List EvaluationResult :=
  dataset.map (fun it => evalOneItem process evalOut it.1 it.2)

/-- Declarative reading of the first compile-failure condition of
the spec: the edge set lacks a `START` edge. -/
def LacksStart (spec : GraphSpec) : Prop :=
  ∀ e ∈ spec.edges, e.1 ≠ "START"

/-- Declarative reading of an edge referencing an undeclared step
name: a `START` edge references its target (the entry node), an edge
into `END` references its source, any other edge references both
endpoints. -/
def edgeRefsUndeclared (nodes : List String) (e : String × String) : Prop :=
  (e.1 = "START" ∧ e.2 ∉ nodes) ∨
  (e.1 ≠ "START" ∧ e.2 = "END" ∧ e.1 ∉ nodes) ∨
  (e.1 ≠ "START" ∧ e.2 ≠ "END" ∧ (e.1 ∉ nodes ∨ e.2 ∉ nodes))

/-- Declarative reading of the second compile-failure condition: some
edge references a step name not declared in the agents/steps set. -/
def RefsUndeclared (spec : GraphSpec) : Prop :=
  ∃ e ∈ spec.edges, edgeRefsUndeclared (graphNodes spec) e

/-- Declarative reading of the third compile-failure condition: the
transition graph contains a cycle, i.e. some node has a nonempty
transition path back to itself. -/
def HasCycle (edges : List (String × String)) : Prop :=
  ∃ x, Relation.TransGen (fun a b => (a, b) ∈ edges) x x

/-! Concrete fixtures used by witnesses and counterexamples. -/

/-- A model backend whose call always raises. -/
def failingModel : ModelBackend := fun _ _ => .error "boom"

/-- A model backend returning a fixed structured result. -/
def okModel : ModelBackend := fun _ _ => .ok (.obj [("title", .str "t")])

/-- A schema validator accepting everything. -/
def okValidator : SchemaValidator := fun v => .ok v

/-- A metric that succeeds with score 1. -/
def okMetricFn : MetricFn := fun _ _ _ => .ok 1

/-- A metric whose evaluation raises. -/
def errMetricFn : MetricFn := fun _ _ _ => .error "metric blew up"

/-- An item processor that succeeds with an empty structure. -/
def okProcess : String → Except String Obj := fun _ => .ok []

/-- An item processor that raises. -/
def errProcess : String → Except String Obj := fun _ => .error "item blew up"

/-- A metric-evaluation call that succeeds with no scores. -/
def okEvalOut : String → Obj → Option Obj → Except String (List (String × ℚ)) :=
  fun _ _ _ => .ok []

/-- A two-node graph specification: `START → extract → END`. -/
def wSpec : GraphSpec :=
  { agents := ["extract"], edges := [("START", "extract"), ("extract", "END")] }

/-- The compiled form of `wSpec`. -/
def wCompiled : CompiledGraph :=
  { nodes := ["extract", "validate_output"]
    edges := [("extract", "validate_output")]
    entry := "extract" }

/-- A graph builder for `wSpec` with an empty compile cache. -/
def wGB : GraphBuilder := { spec := wSpec, graph := none }

/-- The builder after its first execution, cache filled. -/
def wGB1 : GraphBuilder := { spec := wSpec, graph := some wCompiled }

/-- The run-state produced by executing `wSpec` under `okModel`. -/
def wR1 : RunState := invokeGraph wCompiled okModel okValidator "hi"

/-- A cyclic graph specification: `START → a → b → a`. -/
def cycSpec : GraphSpec :=
  { agents := ["a", "b"]
    edges := [("START", "a"), ("a", "b"), ("b", "a")] }

/-! Theorems. -/

/-- C10: the category-classification, downtime-extraction and
completeness metrics all return exactly 0.0 whenever the
`expected_output` argument is `None` or an empty mapping, for every
input text and every actual output — even when the actual output
would match an (empty) expected output perfectly. -/
theorem metrics_zero_on_absent_expected (input_text : String)
    (actual_output : Obj) :
    categoryClassificationEvaluate input_text actual_output none = 0 ∧
    categoryClassificationEvaluate input_text actual_output (some []) = 0 ∧
    downtimeExtractionEvaluate input_text actual_output none = 0 ∧
    downtimeExtractionEvaluate input_text actual_output (some []) = 0 ∧
    completenessEvaluate input_text actual_output none = 0 ∧
    completenessEvaluate input_text actual_output (some []) = 0 := by
  simp [categoryClassificationEvaluate, downtimeExtractionEvaluate,
    completenessEvaluate, noExpected]

/-- C3: the downtime metric scores 0 when the expected output is
absent; 1.0 when expected equals actual under Python `==` (including
both null); for two numeric values `max 0 (1 - |e - a| / e)` with the
`e = 0` short-circuit (1.0 iff `a = 0`, else 0.0); and 0 on any
non-numeric mismatch.  In particular expected 4.0 / actual 5.0 scores
0.75, expected 0 / actual 0 scores 1.0 and expected 0 / actual 2
scores 0.0. -/
theorem downtime_metric_cases (input_text : String) (actual_output : Obj)
    (expected_output : Option Obj) :
    (noExpected expected_output = true →
      downtimeExtractionEvaluate input_text actual_output expected_output = 0) ∧
    (noExpected expected_output = false →
      pyEq (expectedDowntimeOf expected_output) (actualDowntimeOf actual_output) = true →
      downtimeExtractionEvaluate input_text actual_output expected_output = 1) ∧
    (∀ e a : ℚ, noExpected expected_output = false →
      pyEq (expectedDowntimeOf expected_output) (actualDowntimeOf actual_output) = false →
      toNumQ (expectedDowntimeOf expected_output) = some e →
      toNumQ (actualDowntimeOf actual_output) = some a →
      downtimeExtractionEvaluate input_text actual_output expected_output =
        if e = 0 then (if a = 0 then 1 else 0) else max 0 (1 - |e - a| / e)) ∧
    (noExpected expected_output = false →
      pyEq (expectedDowntimeOf expected_output) (actualDowntimeOf actual_output) = false →
      (toNumQ (expectedDowntimeOf expected_output) = none ∨
        toNumQ (actualDowntimeOf actual_output) = none) →
      downtimeExtractionEvaluate input_text actual_output expected_output = 0) ∧
    downtimeExtractionEvaluate "" [("equipment_downtime", .num 5)]
      (some [("equipment_downtime", .num 4)]) = 3 / 4 ∧
    downtimeExtractionEvaluate "" [("equipment_downtime", .num 0)]
      (some [("equipment_downtime", .num 0)]) = 1 ∧
    downtimeExtractionEvaluate "" [("equipment_downtime", .num 2)]
      (some [("equipment_downtime", .num 0)]) = 0 := by
  refine ⟨?_, ?_, ?_, ?_, ?ex1, ?ex2, ?ex3⟩
  case ex1 =>
    norm_num [downtimeExtractionEvaluate, noExpected, expectedDowntimeOf,
      actualDowntimeOf, jLookup, pyEq, toNumQ]
  case ex2 =>
    norm_num [downtimeExtractionEvaluate, noExpected, expectedDowntimeOf,
      actualDowntimeOf, jLookup, pyEq, toNumQ]
  case ex3 =>
    norm_num [downtimeExtractionEvaluate, noExpected, expectedDowntimeOf,
      actualDowntimeOf, jLookup, pyEq, toNumQ]
  · intro h
    simp [downtimeExtractionEvaluate, h]
  · intro h1 h2
    simp [downtimeExtractionEvaluate, h1, h2]
  · intro e a h1 h2 he ha
    simp [downtimeExtractionEvaluate, h1, h2, he, ha]
  · intro h1 h2 h3
    rcases h3 with he | ha
    · simp [downtimeExtractionEvaluate, h1, h2, he]
    · rcases he' : toNumQ (expectedDowntimeOf expected_output) with _ | e
      · simp [downtimeExtractionEvaluate, h1, h2, he']
      · simp [downtimeExtractionEvaluate, h1, h2, he', ha]

/-- C5 counterexample: with an empty expected mapping and an empty
actual output the derived category sets are equal (both empty), yet
the metric scores 0.0 rather than 1.0 — the `if not expected_output`
guard fires before the set comparison. -/
theorem category_metric_equal_sets_zero_cex :
    catSet ((some ([] : Obj)).getD []) = catSet ([] : Obj) ∧
    categoryClassificationEvaluate "" [] (some []) = 0 ∧
    categoryClassificationEvaluate "" [] (some []) ≠ 1 := by
  refine ⟨rfl, ?_, ?_⟩ <;>
    norm_num [categoryClassificationEvaluate, noExpected]

/-- C5 amended: when the expected output is present and non-empty,
the category metric scores 1.0 on exact equality of the derived
category sets and otherwise the Jaccard index of the two sets, whose
union is then provably non-empty (so the 0.0-on-empty-union branch is
unreachable); a `None` or empty expected output scores 0.0.  In
particular expected categories `{work_orders}` against actual
`{work_orders, tasks}` score 1/2. -/
theorem category_metric_amended (input_text : String) (actual_output : Obj)
    (expected_output : Option Obj) :
    (noExpected expected_output = true →
      categoryClassificationEvaluate input_text actual_output expected_output = 0) ∧
    (noExpected expected_output = false →
      catSet (expected_output.getD []) = catSet actual_output →
      categoryClassificationEvaluate input_text actual_output expected_output = 1) ∧
    (noExpected expected_output = false →
      catSet (expected_output.getD []) ≠ catSet actual_output →
      catSet (expected_output.getD []) ∪ catSet actual_output ≠ ∅ ∧
      categoryClassificationEvaluate input_text actual_output expected_output =
        ((catSet (expected_output.getD []) ∩ catSet actual_output).card : ℚ) /
          ((catSet (expected_output.getD []) ∪ catSet actual_output).card : ℚ)) ∧
    categoryClassificationEvaluate ""
      [("work_orders", .arr [.obj []]), ("tasks", .arr [.obj []])]
      (some [("work_orders", .arr [.obj []])]) = 1 / 2 := by
  refine ⟨?_, ?_, ?_, ?ex⟩
  · intro h
    simp [categoryClassificationEvaluate, h]
  · intro h1 h2
    simp [categoryClassificationEvaluate, h1, h2]
  · intro h1 h2
    have hu : catSet (expected_output.getD []) ∪ catSet actual_output ≠ ∅ := by
      intro hu
      rw [Finset.union_eq_empty] at hu
      exact h2 (hu.1.trans hu.2.symm)
    refine ⟨hu, ?_⟩
    simp only [categoryClassificationEvaluate, h1, Bool.false_eq_true, if_false,
      if_neg h2, if_neg hu]
  case ex =>
    have h1 : noExpected (some [("work_orders", JValue.arr [.obj []])]) = false := by
      decide
    have hne : catSet ((some [("work_orders", JValue.arr [.obj []])]).getD []) ≠
        catSet [("work_orders", JValue.arr [.obj []]), ("tasks", JValue.arr [.obj []])] := by
      decide
    have hu : catSet ((some [("work_orders", JValue.arr [.obj []])]).getD []) ∪
        catSet [("work_orders", JValue.arr [.obj []]), ("tasks", JValue.arr [.obj []])] ≠ ∅ := by
      decide
    have hic : (catSet ((some [("work_orders", JValue.arr [.obj []])]).getD []) ∩
        catSet [("work_orders", JValue.arr [.obj []]), ("tasks", JValue.arr [.obj []])]).card = 1 := by
      decide
    have huc : (catSet ((some [("work_orders", JValue.arr [.obj []])]).getD []) ∪
        catSet [("work_orders", JValue.arr [.obj []]), ("tasks", JValue.arr [.obj []])]).card = 2 := by
      decide
    simp only [categoryClassificationEvaluate, h1, Bool.false_eq_true, if_false,
      if_neg hne, if_neg hu, hic, huc]
    norm_num

/-- C6: the asset-identification metric derives its expected set as
the asset ids one of whose phrase variants occurs in the lowercased
input text; an empty expected set scores 1.0 regardless of the actual
output; otherwise it collects every truthy `asset_id` across all
output categories and scores 1.0 on Python set equality, else the
recall `|expected ∩ actual| / |expected|`.  In particular an input
containing "tunnel washer 1" whose output items carry no asset ids
scores 0.0. -/
theorem asset_metric_cases (input_text : String) (actual_output : Obj)
    (expected_output : Option Obj) :
    (∀ id : String, id ∈ expectedAssets input_text ↔
      ∃ p ∈ ASSET_MAPPINGS, p.1 = id ∧
        ∃ variation ∈ p.2, pyIn variation (strLower input_text) = true) ∧
    (expectedAssets input_text = [] →
      assetIdentificationEvaluate input_text actual_output expected_output = 1) ∧
    (expectedAssets input_text ≠ [] →
      assetSetsEqual (expectedAssets input_text) (actualAssets actual_output) = true →
      assetIdentificationEvaluate input_text actual_output expected_output = 1) ∧
    (expectedAssets input_text ≠ [] →
      assetSetsEqual (expectedAssets input_text) (actualAssets actual_output) = false →
      assetIdentificationEvaluate input_text actual_output expected_output =
        (((expectedAssets input_text).filter
            (fun id => memPy (.str id) (actualAssets actual_output))).length : ℚ) /
          ((expectedAssets input_text).length : ℚ)) ∧
    assetIdentificationEvaluate "tunnel washer 1 is down"
      [("work_orders", .arr [.obj [("title", .str "fix washer")]])] none = 0 := by
  refine ⟨?_, ?_, ?_, ?_, ?ex⟩
  · intro id
    simp only [expectedAssets, List.mem_map, List.mem_filter]
    constructor
    · rintro ⟨p, ⟨hp, hv⟩, rfl⟩
      rcases List.any_eq_true.mp hv with ⟨variation, hvar, hin⟩
      exact ⟨p, hp, rfl, variation, hvar, hin⟩
    · rintro ⟨p, hp, rfl, variation, hvar, hin⟩
      exact ⟨p, ⟨hp, List.any_eq_true.mpr ⟨variation, hvar, hin⟩⟩, rfl⟩
  · intro h
    simp [assetIdentificationEvaluate, h]
  · intro h1 h2
    simp only [assetIdentificationEvaluate, h2, if_true]
    rw [if_neg]
    simp [List.isEmpty_iff, h1]
  · intro h1 h2
    simp only [assetIdentificationEvaluate, h2, Bool.false_eq_true, if_false]
    rw [if_neg]
    simp [List.isEmpty_iff, h1]
  case ex =>
    have h1 : expectedAssets "tunnel washer 1 is down" = ["tunnel-001"] := by
      decide
    have h2 : actualAssets
        [("work_orders", JValue.arr [.obj [("title", .str "fix washer")]])] = [] := by
      rfl
    simp only [assetIdentificationEvaluate, h1, h2]
    norm_num [assetSetsEqual, memPy]

/-- C3 witness. -/
theorem downtime_metric_cases_witness :
    downtimeExtractionEvaluate "x" [] none = 0 ∧
    downtimeExtractionEvaluate "x" [("equipment_downtime", .num 3)]
      (some [("equipment_downtime", .num 3)]) = 1 := by
  constructor
  · exact (downtime_metric_cases "x" [] none).1 rfl
  · exact (downtime_metric_cases "x" [("equipment_downtime", .num 3)]
      (some [("equipment_downtime", .num 3)])).2.1 (by decide) (by decide)

/-- C5 witness. -/
theorem category_metric_amended_witness :
    categoryClassificationEvaluate "x" [("tasks", .arr [.obj []])]
      (some [("tasks", .arr [.obj []])]) = 1 :=
  (category_metric_amended "x" [("tasks", .arr [.obj []])]
    (some [("tasks", .arr [.obj []])])).2.1 (by decide) (by decide)

/-- C6 witness. -/
theorem asset_metric_cases_witness :
    assetIdentificationEvaluate "no machines here" [] none = 1 :=
  (asset_metric_cases "no machines here" [] none).2.1 (by decide)

/-- C8: if an individual metric's evaluation raises, the framework
catches the exception for that metric alone, records score 0.0 under
its name at its position in the score map, and still runs every other
registered metric; neither the item's evaluation nor the run aborts. -/
theorem metric_exception_scored_zero (metrics_pre metrics_post : List (String × MetricFn))
    (name : String) (m : MetricFn) (input_text : String) (actual_output : Obj)
    (expected_output : Option Obj) (msg : String)
    (hfail : m input_text actual_output expected_output = .error msg) :
    frameworkEvaluate (metrics_pre ++ (name, m) :: metrics_post)
        input_text actual_output expected_output =
      frameworkEvaluate metrics_pre input_text actual_output expected_output ++
        (name, 0) ::
          frameworkEvaluate metrics_post input_text actual_output expected_output ∧
    (frameworkEvaluate (metrics_pre ++ (name, m) :: metrics_post)
        input_text actual_output expected_output).length =
      metrics_pre.length + 1 + metrics_post.length := by
  constructor
  · simp [frameworkEvaluate, hfail]
  · simp [frameworkEvaluate]
    omega

/-- C8 witness. -/
theorem metric_exception_scored_zero_witness :
    frameworkEvaluate ([("good", okMetricFn)] ++ ("bad", errMetricFn) :: [])
        "" [] none =
      frameworkEvaluate [("good", okMetricFn)] "" [] none ++
        ("bad", 0) :: frameworkEvaluate [] "" [] none ∧
    (frameworkEvaluate ([("good", okMetricFn)] ++ ("bad", errMetricFn) :: [])
        "" [] none).length = 1 + 1 + 0 :=
  metric_exception_scored_zero [("good", okMetricFn)] [] "bad" errMetricFn
    "" [] none "metric blew up" rfl

/-- C7: `run_evaluation` processes dataset items in order, producing
exactly one result per item (the run never aborts because of one
item); when processing or scoring of an item raises, that item's
result has `success = false`, the exception message appended to its
errors and an empty metrics map, and the remaining items are still
evaluated; the measured execution time is recorded on every result
regardless of outcome. -/
theorem run_evaluation_isolates_item_failures
    (process : String → Except String Obj)
    (evalOut : String → Obj → Option Obj → Except String (List (String × ℚ)))
    (pre post : List (EvalItem × ℚ)) (item : EvalItem) (dur : ℚ) :
    runEvaluation process evalOut (pre ++ (item, dur) :: post) =
      runEvaluation process evalOut pre ++
        evalOneItem process evalOut item dur ::
          runEvaluation process evalOut post ∧
    (runEvaluation process evalOut (pre ++ (item, dur) :: post)).length =
      pre.length + 1 + post.length ∧
    (evalOneItem process evalOut item dur).execution_time = dur ∧
    (∀ msg, process item.input = .error msg →
      evalOneItem process evalOut item dur =
        { input_text := item.input, errors := [msg], success := false,
          execution_time := dur }) ∧
    (∀ actual_output msg, process item.input = .ok actual_output →
      evalOut item.input actual_output item.expected_output = .error msg →
      evalOneItem process evalOut item dur =
        { input_text := item.input,
          expected_output := item.expected_output,
          actual_output := some actual_output,
          errors := [msg], success := false, execution_time := dur }) := by
  refine ⟨?_, ?_, ?_, ?_, ?_⟩
  · simp [runEvaluation]
  · simp [runEvaluation]
    omega
  · unfold evalOneItem
    rfl
  · intro msg hp
    simp [evalOneItem, hp]
  · intro actual_output msg hp he
    simp [evalOneItem, hp, he]

/-- C7 witness. -/
theorem run_evaluation_isolates_item_failures_witness :
    evalOneItem errProcess okEvalOut { input := "a", expected_output := none } 2 =
      { input_text := "a", errors := ["item blew up"], success := false,
        execution_time := 2 } ∧
    runEvaluation errProcess okEvalOut
        ([] ++ ({ input := "a", expected_output := none }, 2) :: []) =
      runEvaluation errProcess okEvalOut [] ++
        evalOneItem errProcess okEvalOut { input := "a", expected_output := none } 2 ::
          runEvaluation errProcess okEvalOut [] :=
  ⟨(run_evaluation_isolates_item_failures errProcess okEvalOut [] []
      { input := "a", expected_output := none } 2).2.2.2.1 "item blew up" rfl,
   (run_evaluation_isolates_item_failures errProcess okEvalOut [] []
      { input := "a", expected_output := none } 2).1⟩

/-- C1 counterexample: a step whose model-backend call raises leaves
`step_results` with NO entry for that step — the failure branch of
`_create_agent_node` only appends the error and nulls the output, it
never writes `step_results[agent_name]`.  The claim that an entry is
still present is false on the very first failing step of a run. -/
theorem failing_step_no_step_result_cex :
    failingModel "extract" (mkInitialState "hello").input_data = .error "boom" ∧
    (agentNode failingModel "extract" (mkInitialState "hello")).step_results = [] ∧
    jLookup (agentNode failingModel "extract" (mkInitialState "hello")).step_results
      "extract" = none ∧
    (agentNode failingModel "extract" (mkInitialState "hello")).output_data = none ∧
    (agentNode failingModel "extract" (mkInitialState "hello")).errors =
      ["Error in extract: boom"] := by
  exact ⟨rfl, rfl, rfl, rfl, rfl⟩

/-- C1 amended: when a step's model-backend call raises, the step
leaves `step_results` exactly as it was (in particular it adds no
entry for the step's own name), sets the output to null, appends
exactly one error string of the form `"Error in {step}: {message}"`,
and execution continues: the remaining nodes still run, starting from
the failed step's resulting state. -/
theorem failing_step_amended (model : ModelBackend) (validator : SchemaValidator)
    (agent_name : String) (state : RunState) (msg : String)
    (hname : agent_name ≠ "validate_output")
    (hfail : model agent_name state.input_data = .error msg) :
    (agentNode model agent_name state).step_results = state.step_results ∧
    jLookup (agentNode model agent_name state).step_results agent_name =
      jLookup state.step_results agent_name ∧
    (agentNode model agent_name state).output_data = none ∧
    (agentNode model agent_name state).errors =
      state.errors ++ ["Error in " ++ agent_name ++ ": " ++ msg] ∧
    (agentNode model agent_name state).errors.length = state.errors.length + 1 ∧
    (agentNode model agent_name state).input_data = state.input_data ∧
    (agentNode model agent_name state).metadata = state.metadata ∧
    (∀ rest : List String,
      runNodes model validator (agent_name :: rest) state =
        runNodes model validator rest (agentNode model agent_name state)) := by
  have hnode : agentNode model agent_name state =
      { state with
        errors := state.errors ++ ["Error in " ++ agent_name ++ ": " ++ msg]
        output_data := none } := by
    unfold agentNode
    rw [hfail]
  refine ⟨?_, ?_, ?_, ?_, ?_, ?_, ?_, ?_⟩
  · rw [hnode]
  · rw [hnode]
  · rw [hnode]
  · rw [hnode]
  · rw [hnode]
    simp
  · rw [hnode]
  · rw [hnode]
  · intro rest
    simp [runNodes, runNode, hname]

/-- C1 witness. -/
theorem failing_step_amended_witness :
    (agentNode failingModel "extract" (mkInitialState "hi")).step_results =
      (mkInitialState "hi").step_results ∧
    jLookup (agentNode failingModel "extract" (mkInitialState "hi")).step_results
        "extract" =
      jLookup (mkInitialState "hi").step_results "extract" ∧
    (agentNode failingModel "extract" (mkInitialState "hi")).output_data = none ∧
    (agentNode failingModel "extract" (mkInitialState "hi")).errors =
      (mkInitialState "hi").errors ++ ["Error in " ++ "extract" ++ ": " ++ "boom"] ∧
    (agentNode failingModel "extract" (mkInitialState "hi")).errors.length =
      (mkInitialState "hi").errors.length + 1 ∧
    (agentNode failingModel "extract" (mkInitialState "hi")).input_data =
      (mkInitialState "hi").input_data ∧
    (agentNode failingModel "extract" (mkInitialState "hi")).metadata =
      (mkInitialState "hi").metadata ∧
    runNodes failingModel okValidator ("extract" :: ["next"]) (mkInitialState "hi") =
      runNodes failingModel okValidator ["next"]
        (agentNode failingModel "extract" (mkInitialState "hi")) := by
  have h := failing_step_amended failingModel okValidator "extract"
    (mkInitialState "hi") "boom" (by decide) rfl
  exact ⟨h.1, h.2.1, h.2.2.1, h.2.2.2.1, h.2.2.2.2.1, h.2.2.2.2.2.1,
    h.2.2.2.2.2.2.1, h.2.2.2.2.2.2.2 ["next"]⟩

/-- C9: executing the same graph twice on identical input with the
same deterministic model backend yields identical final run-states
(output, step results, errors and metadata all agree); the second
invocation reuses the graph compiled and cached by the first. -/
theorem graph_execution_idempotent (gb : GraphBuilder) (model : ModelBackend)
    (validator : SchemaValidator) (input_text : String)
    (r1 r2 : RunState) (gb1 gb2 : GraphBuilder)
    (h1 : gbExecute gb model validator input_text = .ok (r1, gb1))
    (h2 : gbExecute gb1 model validator input_text = .ok (r2, gb2)) :
    r1 = r2 ∧ r1.output_data = r2.output_data ∧
    r1.step_results = r2.step_results ∧ r1.errors = r2.errors ∧
    r1.metadata = r2.metadata := by
  have hmain : r1 = r2 := by
    rcases hg : gb.graph with _ | g
    · rw [gbExecute, hg] at h1
      rcases hc : compileGraph gb.spec with e | g0
      · rw [hc] at h1
        cases h1
      · rw [hc] at h1
        injection h1 with h1'
        injection h1' with hr1 hgb1
        rw [gbExecute, ← hgb1] at h2
        simp only at h2
        injection h2 with h2'
        injection h2' with hr2 _
        rw [← hr1, ← hr2]
    · rw [gbExecute, hg] at h1
      injection h1 with h1'
      injection h1' with hr1 hgb1
      rw [gbExecute, ← hgb1, hg] at h2
      injection h2 with h2'
      injection h2' with hr2 _
      rw [← hr1, ← hr2]
  exact ⟨hmain, by rw [hmain], by rw [hmain], by rw [hmain], by rw [hmain]⟩

/-- C9 witness. -/
theorem graph_execution_idempotent_witness :
    wR1 = wR1 ∧ wR1.output_data = wR1.output_data ∧
    wR1.step_results = wR1.step_results ∧ wR1.errors = wR1.errors ∧
    wR1.metadata = wR1.metadata :=
  graph_execution_idempotent wGB okModel okValidator "hi" wR1 wR1 wGB1 wGB1
    (by rfl) (by rfl)

/-- C4 counterexample: the downtime metric's relative-error formula
divides by the (signed) expected value, so a negative expected
downtime yields a score above 1: expected −1, actual −2 scores
`max 0 (1 − |−1 − (−2)| / (−1)) = 2`, outside `[0, 1]`. -/
theorem downtime_score_above_one_cex :
    downtimeExtractionEvaluate "" [("equipment_downtime", .num (-2))]
      (some [("equipment_downtime", .num (-1))]) = 2 ∧
    ¬ downtimeExtractionEvaluate "" [("equipment_downtime", .num (-2))]
      (some [("equipment_downtime", .num (-1))]) ≤ 1 := by
  have h : downtimeExtractionEvaluate "" [("equipment_downtime", .num (-2))]
      (some [("equipment_downtime", .num (-1))]) = 2 := by
    norm_num [downtimeExtractionEvaluate, noExpected, expectedDowntimeOf,
      actualDowntimeOf, jLookup, pyEq, toNumQ]
  refine ⟨h, ?_⟩
  rw [h]
  norm_num

/-- Each per-item completeness score is non-negative. -/
theorem itemScore_nonneg (item : JValue) : 0 ≤ itemScore item := by
  unfold itemScore
  positivity

/-- Each per-item completeness score is at most 1. -/
theorem itemScore_le_one (item : JValue) : itemScore item ≤ 1 := by
  unfold itemScore
  rw [div_le_one (by norm_num [REQUIRED_FIELDS])]
  have := List.length_filter_le
    (fun field =>
      match jLookup (itemFields item) field with
      | some v => truthy v
      | none => false) REQUIRED_FIELDS
  exact_mod_cast this

/-- The summed per-item completeness scores are bounded by the item
count. -/
theorem sum_itemScore_le (l : List JValue) :
    (l.map itemScore).sum ≤ (l.length : ℚ) := by
  induction l with
  | nil => simp
  | cons x xs ih =>
    simp only [List.map_cons, List.sum_cons, List.length_cons]
    push_cast
    have := itemScore_le_one x
    linarith

/-- The summed per-item completeness scores are non-negative. -/
theorem sum_itemScore_nonneg (l : List JValue) :
    0 ≤ (l.map itemScore).sum := by
  induction l with
  | nil => simp
  | cons x xs ih =>
    simp only [List.map_cons, List.sum_cons]
    have := itemScore_nonneg x
    linarith

/-- C4 amended: every metric of the metric set returns a score in
`[0, 1]` on every input, with one exception forced by the
counterexample: the downtime metric stays within `[0, 1]` provided
the expected `equipment_downtime`, when numeric, is non-negative (a
negative expected value can push its score above 1). -/
theorem metric_scores_bounded (validate : Obj → Bool) (input_text : String)
    (actual_output : Obj) (expected_output : Option Obj) :
    (0 ≤ schemaValidityEvaluate validate input_text actual_output expected_output ∧
      schemaValidityEvaluate validate input_text actual_output expected_output ≤ 1) ∧
    (0 ≤ categoryClassificationEvaluate input_text actual_output expected_output ∧
      categoryClassificationEvaluate input_text actual_output expected_output ≤ 1) ∧
    (0 ≤ assetIdentificationEvaluate input_text actual_output expected_output ∧
      assetIdentificationEvaluate input_text actual_output expected_output ≤ 1) ∧
    (0 ≤ completenessEvaluate input_text actual_output expected_output ∧
      completenessEvaluate input_text actual_output expected_output ≤ 1) ∧
    ((∀ q : ℚ, toNumQ (expectedDowntimeOf expected_output) = some q → 0 ≤ q) →
      0 ≤ downtimeExtractionEvaluate input_text actual_output expected_output ∧
      downtimeExtractionEvaluate input_text actual_output expected_output ≤ 1) := by
  refine ⟨?_, ?_, ?_, ?_, ?_⟩
  · unfold schemaValidityEvaluate
    split <;> norm_num
  · unfold categoryClassificationEvaluate
    dsimp only
    split_ifs with h1 h2 h3
    · norm_num
    · norm_num
    · norm_num
    · constructor
      · positivity
      · rw [div_le_one]
        · exact_mod_cast Finset.card_le_card
            (Finset.Subset.trans Finset.inter_subset_left
              Finset.subset_union_left)
        · have : (catSet (expected_output.getD []) ∪ catSet actual_output).Nonempty :=
            Finset.nonempty_iff_ne_empty.mpr h3
          exact_mod_cast Finset.card_pos.mpr this
  · unfold assetIdentificationEvaluate
    dsimp only
    split_ifs with h1 h2
    · norm_num
    · norm_num
    · constructor
      · positivity
      · rw [div_le_one]
        · exact_mod_cast List.length_filter_le _ _
        · have : (expectedAssets input_text).length ≠ 0 := by
            simpa [List.isEmpty_iff, List.length_eq_zero] using h1
          exact_mod_cast Nat.pos_of_ne_zero this
  · unfold completenessEvaluate
    dsimp only
    split_ifs with h1 h2
    · norm_num
    · constructor
      · have h0 := sum_itemScore_nonneg
          (CATEGORIES.flatMap (getItems actual_output))
        positivity
      · rw [div_le_one]
        · exact sum_itemScore_le _
        · exact_mod_cast h2
    · norm_num
  · intro hq
    unfold downtimeExtractionEvaluate
    dsimp only
    split_ifs with h1 h2
    · norm_num
    · norm_num
    · split
      · rename_i e a he ha
        split_ifs with hez haz
        · norm_num
        · norm_num
        · have he0 : 0 ≤ e := hq e he
          have hepos : 0 < e := lt_of_le_of_ne he0 (Ne.symm hez)
          have hrel : 0 ≤ |e - a| / e :=
            div_nonneg (abs_nonneg _) (le_of_lt hepos)
          constructor
          · exact le_max_left 0 _
          · exact max_le (by norm_num) (by linarith)
      · norm_num

/-- C4 witness. -/
theorem metric_scores_bounded_witness :
    0 ≤ downtimeExtractionEvaluate "w" []
        (some [("equipment_downtime", .num 3)]) ∧
    downtimeExtractionEvaluate "w" []
        (some [("equipment_downtime", .num 3)]) ≤ 1 :=
  (metric_scores_bounded (fun _ => true) "w" []
      (some [("equipment_downtime", .num 3)])).2.2.2.2
    (fun q hq => by
      have h3 : some (3 : ℚ) = some q := hq
      injection h3 with h
      rw [← h]
      norm_num)

/-- If every node of a nonempty list has an incoming edge from the
list itself, the edge relation has a cycle (pigeonhole on iterated
predecessors). -/
theorem cycle_of_all_have_pred (edges : List (String × String))
    (S : List String) (hne : S ≠ [])
    (h : ∀ v ∈ S, ∃ u ∈ S, (u, v) ∈ edges) :
    ∃ x, Relation.TransGen (fun a b => (a, b) ∈ edges) x x := by
  classical
  choose f hf1 hf2 using h
  obtain ⟨v0, hv0⟩ : ∃ v, v ∈ S := by
    cases S with
    | nil => exact absurd rfl hne
    | cons a t => exact ⟨a, List.mem_cons_self a t⟩
  let F : {v // v ∈ S} → {v // v ∈ S} := fun p => ⟨f p.1 p.2, hf1 p.1 p.2⟩
  let g : ℕ → {v // v ∈ S} := fun n => F^[n] ⟨v0, hv0⟩
  have hstep : ∀ n : ℕ, ((g (n + 1)).1, (g n).1) ∈ edges := by
    intro n
    have hit : g (n + 1) = F (g n) := Function.iterate_succ_apply' F n _
    rw [hit]
    exact hf2 (g n).1 (g n).2
  have hchain : ∀ k i : ℕ, Relation.TransGen (fun a b => (a, b) ∈ edges)
      (g (i + (k + 1))).1 (g i).1 := by
    intro k
    induction k with
    | zero => exact fun i => Relation.TransGen.single (hstep i)
    | succ k ih =>
      intro i
      exact Relation.TransGen.head (hstep (i + (k + 1))) (ih i)
  have key : ∀ i j : ℕ, i < j → (g i).1 = (g j).1 →
      ∃ x, Relation.TransGen (fun a b => (a, b) ∈ edges) x x := by
    intro i j hij heq
    obtain ⟨k, hk⟩ : ∃ k, j = i + (k + 1) := ⟨j - i - 1, by omega⟩
    refine ⟨(g i).1, ?_⟩
    have hc := hchain k i
    rw [← hk] at hc
    rw [← heq] at hc
    exact hc
  have hmap : ∀ n ∈ Finset.range (S.length + 1),
      (fun n => (g n).1) n ∈ S.toFinset := by
    intro n _
    exact List.mem_toFinset.mpr (g n).2
  have hcard : S.toFinset.card < (Finset.range (S.length + 1)).card := by
    rw [Finset.card_range]
    exact Nat.lt_succ_of_le (List.toFinset_card_le S)
  obtain ⟨i, _, j, _, hne', heq⟩ :=
    Finset.exists_ne_map_eq_of_card_lt_of_maps_to hcard hmap
  rcases Nat.lt_or_ge i j with hij | hij
  · exact key i j hij heq
  · have hji : j < i := lt_of_le_of_ne hij (Ne.symm hne')
    exact key j i hji heq.symm

/-- Every element of a relation chain has a predecessor among the
chain's nodes. -/
theorem chain_mem_has_pred {r : String → String → Prop} :
    ∀ (a : String) (l : List String), List.Chain r a l →
      ∀ v ∈ l, ∃ u ∈ a :: l, r u v := by
  intro a l
  induction l generalizing a with
  | nil =>
    intro _ v hv
    cases hv
  | cons b t ih =>
    intro hch v hv
    cases hch with
    | cons hab hbt =>
      rcases List.mem_cons.mp hv with hvb | hvt
      · exact ⟨a, List.mem_cons_self a _, hvb ▸ hab⟩
      · obtain ⟨u, hu, hr⟩ := ih b hbt v hvt
        exact ⟨u, List.mem_cons_of_mem a hu, hr⟩

/-- From a cycle, extract a nonempty node list each of whose members
has a predecessor inside the list. -/
theorem closed_set_of_cycle (edges : List (String × String)) (x : String)
    (h : Relation.TransGen (fun a b => (a, b) ∈ edges) x x) :
    ∃ C : List String, C ≠ [] ∧ ∀ v ∈ C, ∃ u ∈ C, (u, v) ∈ edges := by
  obtain ⟨y, hxy, hyx⟩ := Relation.TransGen.head'_iff.mp h
  obtain ⟨l, hchain, hlast⟩ := List.exists_chain_of_relationReflTransGen hyx
  refine ⟨y :: l, by simp, ?_⟩
  intro v hv
  rcases List.mem_cons.mp hv with hvy | hvl
  · refine ⟨(y :: l).getLast (List.cons_ne_nil _ _), List.getLast_mem _, ?_⟩
    rw [hlast, hvy]
    exact hxy
  · exact chain_mem_has_pred y l hchain v hvl

/-- A nonempty closed node set survives every Kahn removal step, so
the check returns false when a cycle exists among the remaining
nodes. -/
theorem kahn_false_of_closed (edges : List (String × String))
    (C : List String) (hCne : C ≠ [])
    (hC : ∀ v ∈ C, ∃ u ∈ C, (u, v) ∈ edges) :
    ∀ (fuel : ℕ) (remaining : List String), (∀ v ∈ C, v ∈ remaining) →
      kahn edges fuel remaining = false := by
  have hCmem : ∃ v, v ∈ C := by
    cases C with
    | nil => exact absurd rfl hCne
    | cons a t => exact ⟨a, List.mem_cons_self a t⟩
  obtain ⟨v0, hv0⟩ := hCmem
  intro fuel
  induction fuel with
  | zero =>
    intro remaining hsub
    cases remaining with
    | nil => exact absurd (hsub v0 hv0) (List.not_mem_nil v0)
    | cons a t => rfl
  | succ fuel ih =>
    intro remaining hsub
    cases remaining with
    | nil => exact absurd (hsub v0 hv0) (List.not_mem_nil v0)
    | cons a t =>
      cases hps : pickSource edges (a :: t) with
      | none => simp [kahn, hps]
      | some w =>
        have hw_notC : w ∉ C := by
          intro hwC
          obtain ⟨u, huC, hedge⟩ := hC w hwC
          have hu_rem : u ∈ a :: t := hsub u huC
          have hpw := List.find?_some hps
          rw [Bool.not_eq_true', List.any_eq_false] at hpw
          have := hpw (u, w) hedge
          simp only [beq_self_eq_true, Bool.true_and] at this
          exact this (List.elem_eq_true_of_mem hu_rem)
        have hsub' : ∀ v ∈ C, v ∈ (a :: t).erase w := by
          intro v hv
          have hvrem : v ∈ a :: t := hsub v hv
          have hvw : v ≠ w := fun hvw => hw_notC (hvw ▸ hv)
          exact (List.mem_erase_of_ne hvw).mpr hvrem
        have hrec := ih ((a :: t).erase w) hsub'
        simp [kahn, hps, hrec]

/-- On an acyclic edge relation, the Kahn check always succeeds given
enough fuel: a stuck state would make every remaining node have a
predecessor among the remaining nodes, which yields a cycle. -/
theorem kahn_true_of_acyclic (edges : List (String × String))
    (hnc : ¬ ∃ x, Relation.TransGen (fun a b => (a, b) ∈ edges) x x) :
    ∀ (fuel : ℕ) (remaining : List String), remaining.length ≤ fuel →
      kahn edges fuel remaining = true := by
  intro fuel
  induction fuel with
  | zero =>
    intro remaining hlen
    rw [List.length_eq_zero.mp (Nat.le_zero.mp hlen)]
    rfl
  | succ fuel ih =>
    intro remaining hlen
    cases remaining with
    | nil => rfl
    | cons a t =>
      cases hps : pickSource edges (a :: t) with
      | none =>
        exfalso
        apply hnc
        apply cycle_of_all_have_pred edges (a :: t) (List.cons_ne_nil a t)
        intro v hv
        have hnone := List.find?_eq_none.mp hps v hv
        rw [Bool.not_eq_true, Bool.not_eq_false', List.any_eq_true] at hnone
        obtain ⟨e, he, hcond⟩ := hnone
        rw [Bool.and_eq_true] at hcond
        obtain ⟨hev, hec⟩ := hcond
        refine ⟨e.1, ?_, ?_⟩
        · exact (List.elem_iff).mp hec
        · have : e.2 = v := by
            exact eq_of_beq hev
          rw [← this]
          exact he
      | some w =>
        have hw : w ∈ a :: t := List.mem_of_find?_eq_some hps
        have hlen' : ((a :: t).erase w).length ≤ fuel := by
          rw [List.length_erase_of_mem hw]
          simpa using Nat.le_of_succ_le_succ hlen
        have hrec := ih _ hlen'
        simp [kahn, hps, hrec]

/-- Correctness of the Kahn check: on a node list covering all edge
endpoints, it returns true exactly when the transition relation has
no cycle. -/
theorem kahn_iff_no_cycle (edges : List (String × String))
    (nodes : List String)
    (hclosed : ∀ e ∈ edges, e.1 ∈ nodes ∧ e.2 ∈ nodes) :
    kahn edges nodes.length nodes = true ↔ ¬ HasCycle edges := by
  constructor
  · intro hk hcyc
    obtain ⟨x, hx⟩ := hcyc
    obtain ⟨C, hCne, hC⟩ := closed_set_of_cycle edges x hx
    have hCsub : ∀ v ∈ C, v ∈ nodes := by
      intro v hv
      obtain ⟨u, _, hedge⟩ := hC v hv
      exact (hclosed _ hedge).2
    have hfalse := kahn_false_of_closed edges C hCne hC nodes.length nodes hCsub
    rw [hfalse] at hk
    cases hk
  · intro hnc
    exact kahn_true_of_acyclic edges hnc nodes.length nodes le_rfl

/-- The edge walk finds no entry point exactly when no edge
originates at `START`. -/
theorem findEntry_eq_none_iff (edges : List (String × String)) :
    findEntry edges = none ↔ ∀ e ∈ edges, e.1 ≠ "START" := by
  have general : ∀ (l : List (String × String)) (acc : Option String),
      l.foldl (fun acc e => if e.1 = "START" then some e.2 else acc) acc = none ↔
        (acc = none ∧ ∀ e ∈ l, e.1 ≠ "START") := by
    intro l
    induction l with
    | nil => intro acc; simp
    | cons e t ih =>
      intro acc
      simp only [List.foldl_cons]
      by_cases h : e.1 = "START"
      · rw [if_pos h, ih]
        simp [h]
      · rw [if_neg h, ih]
        simp only [List.mem_cons]
        constructor
        · rintro ⟨hacc, hall⟩
          exact ⟨hacc, by rintro x (rfl | hx); exact h; exact hall x hx⟩
        · rintro ⟨hacc, hall⟩
          exact ⟨hacc, fun x hx => hall x (Or.inr hx)⟩
  unfold findEntry
  rw [general edges none]
  simp

/-- The boolean per-edge declaredness check agrees with its
declarative reading. -/
theorem edgeDeclared_eq_false_iff (nodes : List String) (e : String × String) :
    edgeDeclared nodes e = false ↔ edgeRefsUndeclared nodes e := by
  unfold edgeDeclared edgeRefsUndeclared
  split_ifs with h1 h2
  · simp [h1, List.elem_iff]
  · simp [h1, h2, List.elem_iff]
  · simp [h1, h2, List.elem_iff]
    tauto

/-- When every declared edge passes the declaredness check, the
rewritten transitions stay inside the node set. -/
theorem coreEdges_closed (spec : GraphSpec)
    (hall : spec.edges.all (edgeDeclared (graphNodes spec)) = true) :
    ∀ e ∈ coreEdges spec.edges,
      e.1 ∈ graphNodes spec ∧ e.2 ∈ graphNodes spec := by
  intro e he
  unfold coreEdges at he
  rw [List.mem_flatMap] at he
  obtain ⟨orig, horig, hmem⟩ := he
  have hdecl := List.all_eq_true.mp hall orig horig
  unfold edgeDeclared at hdecl
  by_cases h1 : orig.1 = "START"
  · rw [if_pos h1] at hmem
    cases hmem
  · rw [if_neg h1] at hmem hdecl
    by_cases h2 : orig.2 = "END"
    · rw [if_pos h2] at hmem hdecl
      have heq : e = (orig.1, "validate_output") := by
        simpa using hmem
      rw [heq]
      refine ⟨(List.elem_iff).mp hdecl, ?_⟩
      unfold graphNodes
      simp
    · rw [if_neg h2] at hmem hdecl
      have heq : e = orig := by
        simpa using hmem
      rw [Bool.and_eq_true] at hdecl
      rw [heq]
      exact ⟨(List.elem_iff).mp hdecl.1,
        (List.elem_iff).mp hdecl.2⟩

/-- C2: for a well-formed declaration (distinct agent names, none
colliding with the `START`/`END` sentinels or the implicit
`validate_output` node), compiling the graph fails with a
`ConfigError` exactly when the edge set lacks a `START` edge,
references an undeclared step name, or contains a cycle; and on any
compile failure `execute` surfaces the error without running any
node (no partial execution). -/
theorem compile_fails_iff (spec : GraphSpec)
    (hnd : spec.agents.Nodup)
    (hs : "START" ∉ spec.agents) (he : "END" ∉ spec.agents)
    (hv : "validate_output" ∉ spec.agents) :
    ((∃ err, compileGraph spec = .error err) ↔
      (LacksStart spec ∨ RefsUndeclared spec ∨ HasCycle (coreEdges spec.edges))) ∧
    (∀ (err : ConfigError) (model : ModelBackend) (validator : SchemaValidator)
      (input_text : String), compileGraph spec = .error err →
      executeGraph spec model validator input_text = .error err) := by
  constructor
  · unfold compileGraph
    cases hfe : findEntry spec.edges with
    | none =>
      simp only [hfe]
      constructor
      · intro _
        exact Or.inl ((findEntry_eq_none_iff _).mp hfe)
      · intro _
        exact ⟨.noStartEdge, rfl⟩
    | some entry =>
      simp only [hfe]
      by_cases hall : spec.edges.all (edgeDeclared (graphNodes spec)) = true
      · rw [if_pos hall]
        by_cases hk : kahn (coreEdges spec.edges)
            (graphNodes spec).length (graphNodes spec) = true
        · rw [if_pos hk]
          constructor
          · rintro ⟨err, herr⟩
            cases herr
          · rintro (hls | hrd | hcyc)
            · rw [(findEntry_eq_none_iff spec.edges).mpr hls] at hfe
              cases hfe
            · obtain ⟨e, hee, hbad⟩ := hrd
              have hd := List.all_eq_true.mp hall e hee
              rw [(edgeDeclared_eq_false_iff _ _).mpr hbad] at hd
              cases hd
            · exact absurd hcyc
                ((kahn_iff_no_cycle _ _ (coreEdges_closed spec hall)).mp hk)
        · rw [if_neg hk]
          constructor
          · intro _
            refine Or.inr (Or.inr ?_)
            by_contra hnc
            exact hk ((kahn_iff_no_cycle _ _
              (coreEdges_closed spec hall)).mpr hnc)
          · intro _
            exact ⟨.cyclicGraph, rfl⟩
      · rw [if_neg hall]
        constructor
        · intro _
          refine Or.inr (Or.inl ?_)
          rw [Bool.not_eq_true, List.all_eq_false] at hall
          obtain ⟨e, hee, hbad⟩ := hall
          rw [Bool.not_eq_true] at hbad
          exact ⟨e, hee, (edgeDeclared_eq_false_iff _ _).mp hbad⟩
        · intro _
          exact ⟨.undeclaredStep, rfl⟩
  · intro err model validator input_text hc
    unfold executeGraph
    rw [hc]

/-- C2 witness. -/
theorem compile_fails_iff_witness :
    compileGraph cycSpec = .error ConfigError.cyclicGraph ∧
    executeGraph cycSpec okModel okValidator "x" =
      .error ConfigError.cyclicGraph ∧
    (LacksStart cycSpec ∨ RefsUndeclared cycSpec ∨
      HasCycle (coreEdges cycSpec.edges)) := by
  have h := compile_fails_iff cycSpec (by decide) (by decide) (by decide)
    (by decide)
  have hc : compileGraph cycSpec = .error ConfigError.cyclicGraph := by rfl
  exact ⟨hc, h.2 ConfigError.cyclicGraph okModel okValidator "x" hc,
    h.1.mp ⟨ConfigError.cyclicGraph, hc⟩⟩
